import Mathlib

/-!
Shallow embedding of the product-sandbox core (src/utils/generators.py and
src/utils/metrics.py), together with theorems settling the specification
claims about it.  Timestamps are rationals measured in days since
2025-01-01; the draw stream of the seeded pseudo-random generator is
modelled as a function from draw index to a rational in the unit interval.

Rational arithmetic is performed through the executable wrappers qadd,
qsub, qmul, qdiv, qneg, qmin, qmax below; the bridge lemmas right after
each definition prove that they agree with the standard field operations
on the rationals, so statements and proofs can move freely between the
two forms while concrete runs of the embedded code stay computable by
kernel reduction.
-/

/-- Executable rational addition, equal to + by qadd_eq. -/
def qadd (a b : Rat) : Rat := Rat.divInt (a.num * b.den + b.num * a.den) (a.den * b.den)

/-- Executable rational subtraction, equal to - by qsub_eq. -/
def qsub (a b : Rat) : Rat := Rat.divInt (a.num * b.den - b.num * a.den) (a.den * b.den)

/-- Executable rational multiplication, equal to * by qmul_eq. -/
def qmul (a b : Rat) : Rat := mkRat (a.num * b.num) (a.den * b.den)

/-- Executable rational division, equal to / by qdiv_eq; division by zero
yields zero exactly as for the standard field division on the rationals.
Places where the mirrored code would raise ZeroDivisionError guard the
divisor explicitly instead of relying on this convention. -/
def qdiv (a b : Rat) : Rat := Rat.divInt (a.num * b.den) (a.den * b.num)

/-- Executable rational negation, equal to unary minus by qneg_eq. -/
def qneg (a : Rat) : Rat := Rat.divInt (-a.num) a.den

/-- Executable binary minimum on the rationals. -/
def qmin (a b : Rat) : Rat := if a ≤ b then a else b

/-- Executable binary maximum on the rationals. -/
def qmax (a b : Rat) : Rat := if a ≤ b then b else a

/-- Sum of a list of rationals through the executable addition, mirroring
the builtin sum which folds + over the list from zero. -/
def qsum (l : List Rat) : Rat := l.foldl qadd 0

/-- State of the modelled random generator: the underlying unit-interval
draw stream together with the index of the next draw to consume.
Modelled from the spec: the seeded numpy generator is external to the
repository; the spec only requires a deterministic sequence of draws for a
given seed, so the sequence is abstracted as a function of the draw index. -/
structure RNG where
  stream : Nat → Rat
  pos : Nat

/-- A draw stream is valid when every draw lies in the unit interval [0,1). -/
def ValidStream (f : Nat → Rat) : Prop := ∀ n, 0 ≤ f n ∧ f n < 1

/-- Consume one unit-interval draw, mirroring a call rng.random(). -/
def RNG.next (g : RNG) : Rat × RNG :=
  (g.stream g.pos, ⟨g.stream, g.pos + 1⟩)

/-- Consume one draw of rng.uniform(a, b), the affine image of a unit draw. -/
def RNG.uniformDraw (g : RNG) (a b : Rat) : Rat × RNG :=
  (qadd a (qmul (qsub b a) (g.stream g.pos)), ⟨g.stream, g.pos + 1⟩)

/-- Consume one draw of rng.integers(lo, hi), an integer uniform on [lo, hi).
Modelled from the spec: numpy integer draws are uniform on the half-open
range, modelled here as lo + floor((hi - lo) * u) for a unit draw u. -/
def RNG.integersDraw (g : RNG) (lo hi : Int) : Int × RNG :=
  (lo + (qmul (mkRat (hi - lo) 1) (g.stream g.pos)).floor, ⟨g.stream, g.pos + 1⟩)

/-- Deterministic stream obtained from a seed.
Modelled from the spec: the numpy PCG64 bit generator is external to the
repository; only determinism given the seed matters for the claims, so the
stream is modelled as a concrete seeded mixing function into [0,1). -/
def seededStream (seed : Int) : Nat → Rat := fun n =>
  mkRat (((seed.natAbs * 1103515245 + n * 12345 + 1013904223) % 1000000 : Nat) : Int) 1000000

/-- Mirror of np.random.default_rng(seed); a missing seed is modelled by the
fixed entropy value 0 (its draws are irrelevant to every claim). -/
def default_rng (seed : Option Int) : RNG :=
  ⟨seededStream (seed.getD 0), 0⟩

/-- Calendar month (1..12) of a 0-based day offset inside a non-leap year. -/
def monthOfDay (d : Nat) : Nat :=
  if d < 31 then 1
  else if d < 59 then 2
  else if d < 90 then 3
  else if d < 120 then 4
  else if d < 151 then 5
  else if d < 181 then 6
  else if d < 212 then 7
  else if d < 243 then 8
  else if d < 273 then 9
  else if d < 304 then 10
  else if d < 334 then 11
  else 12

/-- Absolute month index of a timestamp given in days since 2025-01-01,
mirroring a conversion to a calendar month period.  The years 2025-2027
reachable by the generators all have 365 days, which the model exploits;
the function is total on all rationals. -/
def monthIdx (t : Rat) : Int :=
  (t.floor.toNat / 365) * 12 + monthOfDay (t.floor.toNat % 365)

/-- Calendar month (1..12) of a timestamp in days since 2025-01-01. -/
def monthOfDate (t : Rat) : Nat :=
  monthOfDay (t.floor.toNat % 365)

/-- Mirror of the registration-date draw: start + timedelta(days=min(int(x),
days_span - 1)) for x = rng.uniform(0, 365), as a 0-based day offset. -/
def dayFromUniform (u : Rat) : Nat :=
  min (qmul 365 u).floor.toNat 364

/-- Index drawn by a categorical choice with the given probabilities: the
first index whose cumulative probability exceeds the unit draw. -/
def choiceIdx : List Rat → Rat → Nat
  | [], _ => 0
  | p :: ps, u => if u < p then 0 else choiceIdx ps (qsub u p) + 1

/-- Mirror of CHANNEL_CONVERSION_MULT.get(channel, 1.0). -/
def channelMult (c : String) : Rat :=
  if c = "ads" then mkRat 9 10
  else if c = "organic" then 1
  else if c = "referral" then mkRat 5 4
  else 1

/-- Mirror of _seasonality_mult(month, enabled). -/
def seasonalityMult (month : Nat) (enabled : Bool) : Rat :=
  if !enabled then 1
  else if month = 12 ∨ month = 1 then mkRat 6 5
  else if month = 7 ∨ month = 8 then mkRat 17 20
  else 1

/-- Effective conversion probability computed inside _effective_conversion:
base percentage scaled by channel and seasonality multipliers, clamped to
the unit interval. -/
def effectiveP (base_rate_pct : Rat) (channel : String) (reg_month : Nat)
    (seasonality_enabled : Bool) : Rat :=
  qmin 1 (qmax 0 (qmul (qdiv base_rate_pct 100)
    (qmul (channelMult channel) (seasonalityMult reg_month seasonality_enabled))))

/-- One generated user row: user_id, registered_at (whole days since
2025-01-01), converted, variant, channel. -/
structure UserRec where
  user_id : Nat
  registered_at : Rat
  converted : Bool
  variant : String
  channel : String
deriving DecidableEq

/-- Default row used for out-of-range list lookups. -/
def defaultUser : UserRec := ⟨0, 0, false, ("" : String), ("" : String)⟩

/-- Default channel share dictionary used when channel_pct is None. -/
def defaultChannelPct : List (String × Rat) :=
  [(("ads" : String), 30), (("organic" : String), 50), (("referral" : String), 20)]

/-- Mirror of generate_users on an explicit generator state: n registration
date draws, then n channel draws, then n conversion draws, then n variant
draws when ab_test is set.  The assembled frame pairs the ascending-sorted
registered_at column with the other columns kept in generation order,
exactly as the source builds it. -/
def generate_usersR (n_users : Nat) (conversion_rate : Rat) (ab_test : Bool)
    (channel_pct : Option (List (String × Rat))) (seasonality_enabled : Bool)
    (g : RNG) : List UserRec × RNG :=
  let cp := channel_pct.getD defaultChannelPct
  let total : Rat := if qsum (cp.map Prod.snd) = 0 then 1 else qsum (cp.map Prod.snd)
  let channels := cp.map Prod.fst
  let probs0 := cp.map (fun p => qdiv p.snd total)
  let probs := probs0.map (fun p => qdiv p (qsum probs0))
  let dayOffs := (List.range n_users).map (fun i => dayFromUniform (g.stream (g.pos + i)))
  let chans := (List.range n_users).map
    (fun i => channels.getD (choiceIdx probs (g.stream (g.pos + n_users + i))) ("" : String))
  let conv := (List.range n_users).map
    (fun i => decide (g.stream (g.pos + 2 * n_users + i) <
      effectiveP conversion_rate (chans.getD i ("" : String)) (monthOfDay (dayOffs.getD i 0)) seasonality_enabled))
  let variants := if ab_test then
      (List.range n_users).map
        (fun i => if g.stream (g.pos + 3 * n_users + i) < mkRat 1 2 then ("control" : String) else ("test" : String))
    else List.replicate n_users ("control" : String)
  let sortedDays := List.insertionSort (· ≤ ·) dayOffs
  let recs := (List.range n_users).map (fun i =>
    ⟨i + 1, ((sortedDays.getD i 0 : Nat) : Rat), conv.getD i false,
      variants.getD i ("" : String), chans.getD i ("" : String)⟩)
  (recs, ⟨g.stream, g.pos + (if ab_test then 4 else 3) * n_users⟩)

/-- Mirror of generate_users(seed): a fresh generator is created from the
seed and the pure generation pass is run on it. -/
def generate_users (n_users : Nat) (conversion_rate : Rat) (ab_test : Bool)
    (channel_pct : Option (List (String × Rat))) (seasonality_enabled : Bool)
    (seed : Option Int) : List UserRec :=
  (generate_usersR n_users conversion_rate ab_test channel_pct seasonality_enabled
    (default_rng seed)).fst

/-- One generated payment row: user_id, payment_id, amount, paid_at (days
since 2025-01-01, possibly fractional). -/
structure PaymentRec where
  user_id : Nat
  payment_id : Nat
  amount : Rat
  paid_at : Rat
deriving DecidableEq

/-- Nearest integer with ties broken to the even neighbour, mirroring the
builtin round on exactly representable values. -/
def roundHalfEven (q : Rat) : Int :=
  if qsub q q.floor < mkRat 1 2 then q.floor
  else if qsub q q.floor > mkRat 1 2 then q.floor + 1
  else if q.floor % 2 = 0 then q.floor else q.floor + 1

/-- Mirror of round(x, 2): round to the nearest multiple of 1/100. -/
def round2 (q : Rat) : Rat := mkRat (roundHalfEven (qmul q 100)) 100

/-- Mirror of round(x, 1): round to the nearest multiple of 1/10. -/
def round1 (q : Rat) : Rat := mkRat (roundHalfEven (qmul q 10)) 10

/-- Mirror of round(x, 4): round to the nearest multiple of 1/10000. -/
def round4 (q : Rat) : Rat := mkRat (roundHalfEven (qmul q 10000)) 10000

/-- Mirror of the inner repeat loop of generate_payments, running the
remaining iteration budget: each iteration draws a gap uniform on
[7, min(churn_days, 70)), stops before emitting when the gap exceeds
churn_days, and otherwise draws the amount (upper half of the range from
the third overall payment on) and emits the payment. -/
def genRepeats (uid : Nat) (min_amount max_amount churn_days : Rat) :
    Nat → Rat → Nat → Nat → RNG → List PaymentRec × Nat × RNG
  | 0, _, _, payment_id, g => ([], payment_id, g)
  | Nat.succ k, last_paid, payment_number, payment_id, g =>
    let gp := g.uniformDraw 7 (qmin churn_days 70)
    if gp.fst > churn_days then ([], payment_id, gp.snd)
    else
      let last2 := qadd last_paid gp.fst
      let pn2 := payment_number + 1
      let am := if pn2 ≥ 3 then gp.snd.uniformDraw (qdiv (qadd min_amount max_amount) 2) max_amount
        else gp.snd.uniformDraw min_amount max_amount
      let rest := genRepeats uid min_amount max_amount churn_days k last2 pn2 (payment_id + 1) am.snd
      (⟨uid, payment_id, round2 am.fst, last2⟩ :: rest.fst, rest.snd)

/-- Mirror of the per-payer body of generate_payments: the first payment
within 30 days of registration with an amount from the first-payment
range, then the repeat-payment branch guarded by the repeat_rate draw. -/
def genUserPayments (min_amount max_amount first_payment_min first_payment_max churn_days repeat_rate : Rat)
    (uid : Nat) (reg : Rat) (payment_id : Nat) (g : RNG) : List PaymentRec × Nat × RNG :=
  let fd := g.uniformDraw 0 30
  let last_paid := qadd reg fd.fst
  let am := fd.snd.uniformDraw first_payment_min first_payment_max
  let firstPay : PaymentRec := ⟨uid, payment_id, round2 am.fst, last_paid⟩
  let rp := am.snd.next
  if ¬ (rp.fst < repeat_rate) then ([firstPay], payment_id + 1, rp.snd)
  else
    let nr := rp.snd.integersDraw 1 6
    let rest := genRepeats uid min_amount max_amount churn_days nr.fst.toNat last_paid 1 (payment_id + 1) nr.snd
    (firstPay :: rest.fst, rest.snd)

/-- Registration date looked up for a payer through the user_id index; on a
duplicated index the first matching row is taken, as the source does. -/
def regOf (users : List UserRec) (uid : Nat) : Rat :=
  ((users.filter (fun u => u.user_id = uid)).headD defaultUser).registered_at

/-- Mirror of the payer loop of generate_payments over the selected payer
ids, threading the global payment_id counter and the generator state. -/
def genAllPayments (users : List UserRec) (min_amount max_amount first_payment_min first_payment_max churn_days repeat_rate : Rat) :
    List Nat → Nat → RNG → List PaymentRec × RNG
  | [], _, g => ([], g)
  | uid :: rest, payment_id, g =>
    let one := genUserPayments min_amount max_amount first_payment_min first_payment_max churn_days repeat_rate
      uid (regOf users uid) payment_id g
    let restR := genAllPayments users min_amount max_amount first_payment_min first_payment_max churn_days repeat_rate
      rest one.snd.fst one.snd.snd
    (one.fst ++ restR.fst, restR.snd)

/-- Mirror of generate_payments on an explicit generator state: one
pay_rate draw per user row selects the payers, then payments are generated
payer by payer in row order. -/
def generate_paymentsR (users : List UserRec) (min_amount max_amount first_payment_min first_payment_max churn_months pay_rate repeat_rate : Rat)
    (g : RNG) : List PaymentRec × RNG :=
  let n := users.length
  let churn_days := qmul churn_months 30
  let flags := (List.range n).map (fun i => decide (g.stream (g.pos + i) < pay_rate))
  let payers := ((users.zip flags).filter (fun p => p.snd = true)).map (fun p => p.fst.user_id)
  genAllPayments users min_amount max_amount first_payment_min first_payment_max churn_days repeat_rate
    payers 1 ⟨g.stream, g.pos + n⟩

/-- Mirror of generate_payments(seed): a fresh generator is created from
the seed and the pure generation pass is run on it. -/
def generate_payments (users : List UserRec) (min_amount max_amount first_payment_min first_payment_max churn_months pay_rate repeat_rate : Rat)
    (seed : Option Int) : List PaymentRec :=
  (generate_paymentsR users min_amount max_amount first_payment_min first_payment_max churn_months pay_rate repeat_rate
    (default_rng seed)).fst

/-- First-occurrence deduplication, mirroring the unique operation on a
column; the accumulator holds the values already seen. -/
def uniqAux [DecidableEq α] : List α → List α → List α
  | _, [] => []
  | seen, a :: as => if a ∈ seen then uniqAux seen as else a :: uniqAux (a :: seen) as

/-- Distinct values of a list in order of first occurrence. -/
def uniqList [DecidableEq α] (l : List α) : List α := uniqAux [] l

/-- Maximum of a list of rationals (the source only takes maxima of
nonempty groups; the empty list maps to 0). -/
def listMax : List Rat → Rat
  | [] => 0
  | a :: as => as.foldl qmax a

/-- Row of the inner join of payments with users on user_id, carrying the
cohort label (absolute registration month index) and the month-of-life
clamped to be nonnegative, exactly as the shared preprocessing block of
the cohort builders computes them. -/
structure JoinRow where
  user_id : Nat
  cohort : Int
  monthNum : Nat
deriving DecidableEq

/-- Inner join of payments with users on user_id, in payment order with
duplicated matches expanded, computing cohort and month-of-life. -/
def joinPayments (users : List UserRec) (pays : List PaymentRec) : List JoinRow :=
  pays.flatMap (fun p => (users.filter (fun u => u.user_id = p.user_id)).map (fun u =>
    ⟨p.user_id, monthIdx u.registered_at, (monthIdx p.paid_at - monthIdx u.registered_at).toNat⟩))

/-- Distinct payers of a cohort at a given month-of-life. -/
def payersAt (pay : List JoinRow) (co : Int) (m : Nat) : List Nat :=
  uniqList ((pay.filter (fun r => r.cohort = co ∧ r.monthNum = m)).map (fun r => r.user_id))

/-- Cell of a cohort pivot table: cohort row key, month-of-life column key
and the percentage held in the cell. -/
structure CohortCell where
  cohort : Int
  monthNum : Nat
  pct : Rat
deriving DecidableEq

/-- Mirror of build_retention_cohorts: for every cohort with a nonempty
set P0 of month-0 payers and every observed month-of-life n, the
percentage of P0 paying again in month n; cohorts with empty P0 are
skipped entirely. -/
def build_retention_cohorts (users : List UserRec) (pays : List PaymentRec) : List CohortCell :=
  if users = [] ∨ pays = [] then []
  else
    let pay := joinPayments users pays
    let cohorts := uniqList (pay.map (fun r => r.cohort))
    let months := List.insertionSort (· ≤ ·) (uniqList (pay.map (fun r => r.monthNum)))
    cohorts.flatMap (fun co =>
      let payers_m0 := payersAt pay co 0
      if payers_m0 = [] then []
      else months.map (fun m =>
        let payers_mn := payersAt pay co m
        let returned := (payers_m0.filter (fun u => u ∈ payers_mn)).length
        ⟨co, m, qmul (qdiv (returned : Int) (payers_m0.length : Int)) 100⟩))

/-- Mirror of churn_by_cohort_table: identical traversal to the retention
builder, with each cell holding 100 minus the retained percentage. -/
def churn_by_cohort_table (users : List UserRec) (pays : List PaymentRec) : List CohortCell :=
  if users = [] ∨ pays = [] then []
  else
    let pay := joinPayments users pays
    let cohorts := uniqList (pay.map (fun r => r.cohort))
    let months := List.insertionSort (· ≤ ·) (uniqList (pay.map (fun r => r.monthNum)))
    cohorts.flatMap (fun co =>
      let payers_m0 := payersAt pay co 0
      if payers_m0 = [] then []
      else months.map (fun m =>
        let payers_mn := payersAt pay co m
        let retained := (payers_m0.filter (fun u => u ∈ payers_mn)).length
        ⟨co, m, qsub 100 (qmul (qdiv (retained : Int) (payers_m0.length : Int)) 100)⟩))

/-- Mirror of calc_churn_rate: among payers active at the period start
(last payment at or after reference - period_days - inactive_days), the
share whose last payment precedes reference - inactive_days; zero on an
empty payment table or an empty active set, with a missing reference
defaulting to the latest payment timestamp. -/
def calc_churn_rate (pays : List PaymentRec) (inactive_days period_days : Int)
    (reference_date : Option Rat) : Rat :=
  if pays = [] then 0
  else
    let reference := reference_date.getD (listMax (pays.map (fun p => p.paid_at)))
    let last_payment := (uniqList (pays.map (fun p => p.user_id))).map
      (fun u => (u, listMax ((pays.filter (fun p => p.user_id = u)).map (fun p => p.paid_at))))
    let period_start := qsub reference (mkRat period_days 1)
    let active_cutoff := qsub period_start (mkRat inactive_days 1)
    let active_at_start := last_payment.filter (fun pr => pr.snd ≥ active_cutoff)
    if active_at_start.length = 0 then 0
    else
      let churn_cutoff := qsub reference (mkRat inactive_days 1)
      let churned := active_at_start.filter (fun pr => pr.snd < churn_cutoff)
      qmul (qdiv (churned.length : Int) (active_at_start.length : Int)) 100

deriving instance DecidableEq for Except

/-- Row of the A/B summary frame: group label, user count, conversion
percentage, revenue, ARPU and the revenue p-value, rounded as displayed. -/
structure ABRow where
  group : String
  nUsers : Nat
  convPct : Rat
  revenue : Rat
  arpu : Rat
  arpuP : Rat
deriving DecidableEq

/-- Mirror of ab_metrics.  The external statistical routines are passed in
as parameters: chi2P stands for the p-value of the chi-squared
independence test on the 2x2 table and ttestP for the Welch t-test
p-value on the two per-user revenue arrays; every theorem below holds for
all instantiations of these parameters.  A table with a zero row or
column sum makes the chi-squared routine raise, modelled as an error
value.  The hasVariantCol flag mirrors the presence of the variant column
in the incoming frame. -/
def ab_metrics (chi2P : Nat → Nat → Nat → Nat → Rat) (ttestP : List Rat → List Rat → Rat)
    (hasVariantCol : Bool) (users : List UserRec) (pays : List PaymentRec) :
    Except String (List ABRow × Rat × Rat × Bool) :=
  if ¬ hasVariantCol ∨ (uniqList (users.map (fun u => u.variant))).length < 2 then
    Except.ok ([], 0, 0, false)
  else
    let control := users.filter (fun u => u.variant = "control")
    let tgroup := users.filter (fun u => u.variant = "test")
    let conv_control := (control.filter (fun u => u.converted)).length
    let conv_test := (tgroup.filter (fun u => u.converted)).length
    let n_control := control.length
    let n_test := tgroup.length
    if n_control = 0 ∨ n_test = 0 ∨ conv_control + conv_test = 0 ∨
        (n_control - conv_control) + (n_test - conv_test) = 0 then
      Except.error ("chi2_contingency: zero element in the table of expected frequencies")
    else
      let p_value := chi2P conv_control (n_control - conv_control) conv_test (n_test - conv_test)
      let cr_control := if n_control ≠ 0 then qmul (qdiv (conv_control : Int) (n_control : Int)) 100 else 0
      let cr_test := if n_test ≠ 0 then qmul (qdiv (conv_test : Int) (n_test : Int)) 100 else 0
      let uplift := if cr_control ≠ 0 then qmul (qdiv (qsub cr_test cr_control) cr_control) 100 else 0
      let rev_control := if pays = [] then 0
        else qsum ((pays.filter (fun p => (control.map (fun u => u.user_id)).contains p.user_id)).map (fun p => p.amount))
      let rev_test := if pays = [] then 0
        else qsum ((pays.filter (fun p => (tgroup.map (fun u => u.user_id)).contains p.user_id)).map (fun p => p.amount))
      let arpu_control := if n_control ≠ 0 then qdiv rev_control (n_control : Int) else 0
      let arpu_test := if n_test ≠ 0 then qdiv rev_test (n_test : Int) else 0
      let p_value_arpu :=
        if pays ≠ [] ∧ n_control ≠ 0 ∧ n_test ≠ 0 then
          let all_control_rev := control.map (fun u => qsum ((pays.filter (fun p => p.user_id = u.user_id)).map (fun p => p.amount)))
          let all_test_rev := tgroup.map (fun u => qsum ((pays.filter (fun p => p.user_id = u.user_id)).map (fun p => p.amount)))
          if 2 ≤ all_control_rev.length ∧ 2 ≤ all_test_rev.length then ttestP all_control_rev all_test_rev
          else 1
        else 1
      let summary := [
        ⟨("Контроль" : String), n_control, round2 cr_control, round2 rev_control, round2 arpu_control, round4 p_value_arpu⟩,
        ⟨("Тест" : String), n_test, round2 cr_test, round2 rev_test, round2 arpu_test, round4 p_value_arpu⟩]
      Except.ok (summary, p_value, uplift, decide (p_value < mkRat 1 20))

/-- Stand-in for the infinite value returned by the root-finding equation
at a nonpositive effect size; its exact value is irrelevant to every
claim since the solver is abstract. -/
def infinityModel : Rat := mkRat (10 ^ 30) 1

/-- Mirror of calc_mde_and_sample_size on explicit critical values z_alpha
and z_beta (the normal quantiles are external library calls).  The
root-finding routine brentq is likewise external and is passed in as the
parameter br, an error standing for its bracketing ValueError; the guard
clause returns (0, 0), the sample-size formula divides by the squared
target-lift effect (a ZeroDivisionError when that effect or the ratio is
zero, modelled as an error value), and the MDE is solved at the fixed
reference size 1000 with the 50 percent sentinel on solver failure. -/
def calc_mde_and_sample_size (br : (Rat → Rat) → Rat → Rat → Except Unit Rat)
    (p_control z_alpha z_beta ratio target_lift_pct : Rat) :
    Except String (Rat × Int) :=
  if p_control ≤ 0 ∨ 1 ≤ p_control then Except.ok (0, 0)
  else
    let p1 := p_control
    let p2 := qmin (mkRat 99 100) (qmul p1 (qadd 1 (qdiv target_lift_pct 100)))
    let effect_size := qsub p2 p1
    let var1 := qmul p1 (qsub 1 p1)
    let var2 := qmul p2 (qsub 1 p2)
    if effect_size = 0 ∨ ratio = 0 then Except.error ("ZeroDivisionError")
    else
      let zsum := qadd z_alpha z_beta
      let n0 := (qdiv (qmul (qmul zsum zsum) (qadd var1 (qdiv var2 ratio))) (qmul effect_size effect_size)).ceil
      let n_per_group := max 30 n0
      let mde_pct :=
        match br (fun effect_abs =>
            if effect_abs ≤ 0 then infinityModel
            else
              let p2t := qmin (mkRat 99 100) (qadd p_control effect_abs)
              let v1 := qmul p_control (qsub 1 p_control)
              let v2 := qmul p2t (qsub 1 p2t)
              qsub (qdiv (qmul (qmul zsum zsum) (qadd v1 (qdiv v2 ratio))) (qmul effect_abs effect_abs)) (mkRat 1000 1))
          (mkRat 1 1000) (qmin (mkRat 1 2) (qsub (qsub 1 p_control) (mkRat 1 1000))) with
        | Except.ok effect_abs => if 0 < p_control then qmul (qdiv effect_abs p_control) 100 else 50
        | Except.error _ => 50
      Except.ok (round1 mde_pct, n_per_group)

/-- Mirror of calc_mde_simple on explicit critical values: the same
root-finding equation solved against the supplied per-group size, with
the same bracket, rounding and 50 percent fallback, and a zero result on
a nonpositive n or an out-of-range baseline. -/
def calc_mde_simple (br : (Rat → Rat) → Rat → Rat → Except Unit Rat)
    (n_per_group : Int) (p_control z_alpha z_beta ratio : Rat) : Rat :=
  if n_per_group ≤ 0 ∨ p_control ≤ 0 ∨ 1 ≤ p_control then 0
  else
    let zsum := qadd z_alpha z_beta
    match br (fun effect_abs =>
        if effect_abs ≤ 0 then infinityModel
        else
          let p2t := qmin (mkRat 99 100) (qadd p_control effect_abs)
          let v1 := qmul p_control (qsub 1 p_control)
          let v2 := qmul p2t (qsub 1 p2t)
          qsub (qdiv (qmul (qmul zsum zsum) (qadd v1 (qdiv v2 ratio))) (qmul effect_abs effect_abs)) (mkRat n_per_group 1))
      (mkRat 1 1000) (qmin (mkRat 1 2) (qsub (qsub 1 p_control) (mkRat 1 1000))) with
    | Except.ok effect_abs => round1 (if 0 < p_control then qmul (qdiv effect_abs p_control) 100 else 50)
    | Except.error _ => 50

/-- Root finder instantiation that always reports a bracketing failure;
used to exercise the fallback paths on concrete inputs. -/
def brFail : (Rat → Rat) → Rat → Rat → Except Unit Rat := fun _ _ _ => Except.error ()

/-- Draw stream exhibiting the registration-date misalignment of the user
generator: the two dates are generated out of order (an August day, then a
January day), both channel draws select organic, and the first conversion
draw falls between the August-damped and the January-boosted conversion
probabilities. -/
def c1Stream : Nat → Rat := fun k =>
  if k = 0 then qdiv 212 365
  else if k = 1 then qdiv 5 365
  else if k = 4 then mkRat 12 100
  else mkRat 1 2

/-- Draw stream for the first-payment rounding boundary: the single user
passes the payer draw, pays immediately, and the amount draw lands near
the top of a cent-misaligned first-payment range. -/
def c7Stream : Nat → Rat := fun k =>
  if k = 2 then mkRat 99 100 else if k = 3 then mkRat 1 2 else 0

theorem qadd_eq (a b : Rat) : qadd a b = a + b := by
  conv_rhs => rw [← Rat.num_divInt_den a, ← Rat.num_divInt_den b,
    Rat.divInt_add_divInt _ _ (Int.natCast_ne_zero.2 a.den_nz) (Int.natCast_ne_zero.2 b.den_nz)]
  rfl

theorem qsub_eq (a b : Rat) : qsub a b = a - b := by
  conv_rhs => rw [← Rat.num_divInt_den a, ← Rat.num_divInt_den b,
    Rat.divInt_sub_divInt _ _ (Int.natCast_ne_zero.2 a.den_nz) (Int.natCast_ne_zero.2 b.den_nz)]
  rfl

theorem qmul_eq (a b : Rat) : qmul a b = a * b := (Rat.mul_eq_mkRat a b).symm

theorem qdiv_eq (a b : Rat) : qdiv a b = a / b := (Rat.div_def' a b).symm

theorem qneg_eq (a : Rat) : qneg a = -a := by
  conv_rhs => rw [← Rat.num_divInt_den a, Rat.neg_divInt]
  rfl

theorem qmin_eq (a b : Rat) : qmin a b = min a b := (min_def a b).symm

theorem qmax_eq (a b : Rat) : qmax a b = max a b := (max_def a b).symm

theorem intFloor_eq_ratFloor (q : Rat) : ⌊q⌋ = q.floor := by
  rw [Rat.floor_def, Rat.floor_def']

theorem getD_map_range {α : Type} {f : Nat → α} {n i : Nat} (h : i < n) {d : α} :
    ((List.range n).map f).getD i d = f i := by
  have hi : i < ((List.range n).map f).length := by simpa using h
  rw [List.getD_eq_getElem _ _ hi]
  simp

/-- C6: generate_users returns exactly n records whose user_id column is
the dense sequence 1..n, for every parameter set and seed, including the
degenerate case n = 0 which yields the empty dataset. -/
theorem C6_user_count (n : Nat) (base : Rat) (ab : Bool)
    (cp : Option (List (String × Rat))) (seas : Bool) (seed : Option Int) :
    (generate_users n base ab cp seas seed).length = n ∧
    (generate_users n base ab cp seas seed).map (fun u => u.user_id) = List.range' 1 n := by
  constructor
  · simp [generate_users, generate_usersR]
  · simp only [generate_users, generate_usersR, List.map_map]
    rw [List.range'_eq_map_range]
    apply List.map_congr_left
    intro i _
    simp [Nat.add_comm]

/-- C8: with a fixed non-None seed and identical parameters, two runs of
the user generator agree field for field, and so do two runs of the
payment generator on the same user dataset; both generators are pure
functions of their arguments since each call builds a fresh generator
from the seed. -/
theorem C8_determinism (n : Nat) (base : Rat) (ab : Bool)
    (cp : Option (List (String × Rat))) (seas : Bool) (users : List UserRec)
    (ma mb f1 f2 cm pr rr : Rat) (seed1 seed2 : Int) (h : seed1 = seed2) :
    generate_users n base ab cp seas (some seed1) = generate_users n base ab cp seas (some seed2) ∧
    generate_payments users ma mb f1 f2 cm pr rr (some seed1) =
      generate_payments users ma mb f1 f2 cm pr rr (some seed2) := by
  subst h
  exact ⟨rfl, rfl⟩

theorem C8_witness :
    (42 : Int) = 42 ∧
    (generate_users 3 12 true none true (some 42) = generate_users 3 12 true none true (some 42) ∧
     generate_payments [] 100 200 299 499 3 (mkRat 3 20) (mkRat 3 10) (some 42) =
       generate_payments [] 100 200 299 499 3 (mkRat 3 20) (mkRat 3 10) (some 42)) :=
  ⟨rfl, C8_determinism 3 12 true none true [] 100 200 299 499 3 (mkRat 3 20) (mkRat 3 10) 42 42 rfl⟩

/-- C1 counterexample: the record with user_id 1 carries the sorted-in
January registration date, but its converted flag was drawn with the
seasonality multiplier of the August date generated at the same index, so
the Bernoulli probability attached to the registered_at of the record does
not reproduce the stored flag. -/
theorem C1_counterexample :
    ¬ (((generate_usersR 2 12 false none true ⟨c1Stream, 0⟩).fst.getD 0 defaultUser).converted =
      decide (c1Stream 4 <
        effectiveP 12 ((generate_usersR 2 12 false none true ⟨c1Stream, 0⟩).fst.getD 0 defaultUser).channel
          (monthOfDate ((generate_usersR 2 12 false none true ⟨c1Stream, 0⟩).fst.getD 0 defaultUser).registered_at)
          true)) := by decide

/-- C1 amended: the converted flag of the i-th record is the Bernoulli
draw at the effective conversion probability built from the channel of the
record together with the calendar month of the i-th *generated*
registration date (the date drawn at index i before the sort), not the
month of the (sorted) registered_at stored on the record. -/
theorem C1_conversion_draw (n : Nat) (base : Rat) (ab : Bool)
    (cp : Option (List (String × Rat))) (seas : Bool) (g : RNG) (i : Nat) (h : i < n) :
    ((generate_usersR n base ab cp seas g).fst.getD i defaultUser).converted =
      decide (g.stream (g.pos + 2 * n + i) <
        effectiveP base ((generate_usersR n base ab cp seas g).fst.getD i defaultUser).channel
          (monthOfDay (dayFromUniform (g.stream (g.pos + i)))) seas) := by
  simp only [generate_usersR]
  simp only [getD_map_range h]

theorem C1_witness :
    (0 : Nat) < 2 ∧
    ((generate_usersR 2 12 false none true ⟨c1Stream, 0⟩).fst.getD 0 defaultUser).converted =
      decide (c1Stream (0 + 2 * 2 + 0) <
        effectiveP 12 ((generate_usersR 2 12 false none true ⟨c1Stream, 0⟩).fst.getD 0 defaultUser).channel
          (monthOfDay (dayFromUniform (c1Stream (0 + 0)))) true) :=
  ⟨by decide, C1_conversion_draw 2 12 false none true ⟨c1Stream, 0⟩ 0 (by decide)⟩

/-- C2 counterexample: a population carrying the variant labels control
and x has two distinct labels, so the guard lets it through, the test
group is empty, the contingency table has a zero row sum, and the
chi-squared call raises instead of returning the neutral result — the
engine is not exception-free, and a population without both of control
and test does not always map to the neutral result. -/
theorem C2_counterexample :
    ab_metrics (fun _ _ _ _ => 0) (fun _ _ => 0) true
        [⟨1, 0, false, ("control" : String), ("organic" : String)⟩,
         ⟨2, 0, false, ("x" : String), ("organic" : String)⟩] [] =
      Except.error ("chi2_contingency: zero element in the table of expected frequencies") ∧
    ([⟨1, 0, false, ("control" : String), ("organic" : String)⟩,
      ⟨2, 0, false, ("x" : String), ("organic" : String)⟩].filter
        (fun u : UserRec => u.variant = "test")).length = 0 ∧
    ab_metrics (fun _ _ _ _ => 0) (fun _ _ => 0) true
        [⟨1, 0, false, ("control" : String), ("organic" : String)⟩,
         ⟨2, 0, false, ("x" : String), ("organic" : String)⟩] [] ≠
      Except.ok ([], 0, 0, false) := by
  refine ⟨by decide, by decide, by decide⟩

/-- C2 amended: whenever the variant column is absent or carries fewer
than two distinct labels (which covers the empty user table and every
single-variant population), ab_metrics returns the neutral result of an
empty summary, p-value 0, uplift 0 and significance false, for every
instantiation of the external statistical routines. -/
theorem C2_degenerate_guard (chi2P : Nat → Nat → Nat → Nat → Rat)
    (ttestP : List Rat → List Rat → Rat) (hasVariantCol : Bool)
    (users : List UserRec) (pays : List PaymentRec)
    (h : ¬ hasVariantCol ∨ (uniqList (users.map (fun u => u.variant))).length < 2) :
    ab_metrics chi2P ttestP hasVariantCol users pays = Except.ok ([], 0, 0, false) := by
  simp only [ab_metrics]
  rw [if_pos h]

theorem C2_witness :
    (¬ true ∨ (uniqList (([] : List UserRec).map (fun u => u.variant))).length < 2) ∧
    ab_metrics (fun _ _ _ _ => 0) (fun _ _ => 0) true [] [] = Except.ok ([], 0, 0, false) :=
  ⟨by decide, C2_degenerate_guard (fun _ _ _ _ => 0) (fun _ _ => 0) true [] [] (by decide)⟩

/-- C3 counterexample: at baseline 1/2 with an 80 percent target lift and
critical values 2 and 1, the two-proportion power formula gives a ceiling
of 20, but the function returns 30 — the result is additionally clamped
from below by 30 and so does not always equal the bare formula value. -/
theorem C3_counterexample :
    (calc_mde_and_sample_size brFail (mkRat 1 2) 2 1 1 80).map Prod.snd = Except.ok 30 ∧
    (qdiv (qmul (qmul (qadd 2 1) (qadd 2 1))
        (qadd (qmul (mkRat 1 2) (qsub 1 (mkRat 1 2)))
          (qdiv (qmul (mkRat 9 10) (qsub 1 (mkRat 9 10))) 1)))
      (qmul (qsub (mkRat 9 10) (mkRat 1 2)) (qsub (mkRat 9 10) (mkRat 1 2)))).ceil = 20 ∧
    (30 : Int) ≠ 20 := by
  refine ⟨by decide, by decide, by decide⟩

/-- C3 amended: for a baseline strictly inside the unit interval, a
nonzero allocation ratio and a target lift whose capped treatment rate
differs from the baseline (otherwise the source raises ZeroDivisionError),
the returned per-group size is the two-proportion power formula ceiling
clamped from below by 30. -/
theorem C3_sample_size (br : (Rat → Rat) → Rat → Rat → Except Unit Rat)
    (p z_alpha z_beta ratio lift : Rat) (h0 : 0 < p) (h1 : p < 1)
    (heff : qmin (mkRat 99 100) (qmul p (qadd 1 (qdiv lift 100))) ≠ p) (hr : ratio ≠ 0) :
    (calc_mde_and_sample_size br p z_alpha z_beta ratio lift).map Prod.snd =
      Except.ok (max 30
        (qdiv (qmul (qmul (qadd z_alpha z_beta) (qadd z_alpha z_beta))
            (qadd (qmul p (qsub 1 p))
              (qdiv (qmul (qmin (mkRat 99 100) (qmul p (qadd 1 (qdiv lift 100))))
                  (qsub 1 (qmin (mkRat 99 100) (qmul p (qadd 1 (qdiv lift 100)))))) ratio)))
          (qmul (qsub (qmin (mkRat 99 100) (qmul p (qadd 1 (qdiv lift 100)))) p)
            (qsub (qmin (mkRat 99 100) (qmul p (qadd 1 (qdiv lift 100)))) p))).ceil) := by
  have hguard : ¬ (p ≤ 0 ∨ 1 ≤ p) := by
    push_neg
    exact ⟨h0, h1⟩
  have heff2 : qsub (qmin (mkRat 99 100) (qmul p (qadd 1 (qdiv lift 100)))) p ≠ 0 := by
    rw [qsub_eq]
    intro hz
    exact heff (by linarith [sub_eq_zero.mp hz])
  simp only [calc_mde_and_sample_size]
  rw [if_neg hguard, if_neg (by push_neg; exact ⟨heff2, hr⟩)]
  cases br (fun effect_abs =>
      if effect_abs ≤ 0 then infinityModel
      else
        qsub (qdiv (qmul (qmul (qadd z_alpha z_beta) (qadd z_alpha z_beta))
            (qadd (qmul p (qsub 1 p))
              (qdiv (qmul (qmin (mkRat 99 100) (qadd p effect_abs))
                (qsub 1 (qmin (mkRat 99 100) (qadd p effect_abs)))) ratio)))
          (qmul effect_abs effect_abs)) (mkRat 1000 1))
      (mkRat 1 1000) (qmin (mkRat 1 2) (qsub (qsub 1 p) (mkRat 1 1000))) <;>
    simp [Except.map]

theorem C3_witness :
    (0 : Rat) < mkRat 1 10 ∧ (mkRat 1 10 : Rat) < 1 ∧
    qmin (mkRat 99 100) (qmul (mkRat 1 10) (qadd 1 (qdiv 20 100))) ≠ mkRat 1 10 ∧ (1 : Rat) ≠ 0 ∧
    (calc_mde_and_sample_size brFail (mkRat 1 10) 2 1 1 20).map Prod.snd =
      Except.ok (max 30
        (qdiv (qmul (qmul (qadd 2 1) (qadd 2 1))
            (qadd (qmul (mkRat 1 10) (qsub 1 (mkRat 1 10)))
              (qdiv (qmul (qmin (mkRat 99 100) (qmul (mkRat 1 10) (qadd 1 (qdiv 20 100))))
                  (qsub 1 (qmin (mkRat 99 100) (qmul (mkRat 1 10) (qadd 1 (qdiv 20 100)))))) 1)))
          (qmul (qsub (qmin (mkRat 99 100) (qmul (mkRat 1 10) (qadd 1 (qdiv 20 100)))) (mkRat 1 10))
            (qsub (qmin (mkRat 99 100) (qmul (mkRat 1 10) (qadd 1 (qdiv 20 100)))) (mkRat 1 10)))).ceil) :=
  ⟨by decide, by decide, by decide, by decide,
    C3_sample_size brFail (mkRat 1 10) 2 1 1 20 (by decide) (by decide) (by decide) (by decide)⟩

/-- C5 counterexample: at a baseline of exactly 99/100 the capped target
rate coincides with the baseline, so the combined solver raises
ZeroDivisionError while the simple solver at n = 1000 returns the 50
percent sentinel — the two entry points do not agree on every baseline
strictly inside the unit interval. -/
theorem C5_counterexample :
    (calc_mde_and_sample_size brFail (mkRat 99 100) 2 1 1 20).map Prod.fst =
      Except.error ("ZeroDivisionError") ∧
    calc_mde_simple brFail 1000 (mkRat 99 100) 2 1 1 = 50 ∧
    (calc_mde_and_sample_size brFail (mkRat 99 100) 2 1 1 20).map Prod.fst ≠
      Except.ok (calc_mde_simple brFail 1000 (mkRat 99 100) 2 1 1) := by
  refine ⟨by decide, by decide, by decide⟩

/-- C5 amended: for a baseline strictly inside the unit interval, a
nonzero allocation ratio and a capped default-lift treatment rate
differing from the baseline (excluding exactly the 99/100 baseline on
which the combined solver raises), the MDE reported by the combined
solver at its fixed reference size 1000 equals the MDE reported by the
simple solver called with n = 1000, identically for every root-finding
routine, including the shared 50 percent fallback. -/
theorem C5_mde_round_trip (br : (Rat → Rat) → Rat → Rat → Except Unit Rat)
    (p z_alpha z_beta ratio : Rat) (h0 : 0 < p) (h1 : p < 1)
    (heff : qmin (mkRat 99 100) (qmul p (qadd 1 (qdiv 20 100))) ≠ p) (hr : ratio ≠ 0) :
    (calc_mde_and_sample_size br p z_alpha z_beta ratio 20).map Prod.fst =
      Except.ok (calc_mde_simple br 1000 p z_alpha z_beta ratio) := by
  have hguard : ¬ (p ≤ 0 ∨ 1 ≤ p) := by
    push_neg
    exact ⟨h0, h1⟩
  have hguard2 : ¬ ((1000 : Int) ≤ 0 ∨ p ≤ 0 ∨ 1 ≤ p) := by
    push_neg
    exact ⟨by decide, h0, h1⟩
  have heff2 : qsub (qmin (mkRat 99 100) (qmul p (qadd 1 (qdiv 20 100)))) p ≠ 0 := by
    rw [qsub_eq]
    intro hz
    exact heff (by linarith [sub_eq_zero.mp hz])
  simp only [calc_mde_and_sample_size, calc_mde_simple]
  rw [if_neg hguard, if_neg (by push_neg; exact ⟨heff2, hr⟩), if_neg hguard2]
  cases br (fun effect_abs =>
      if effect_abs ≤ 0 then infinityModel
      else
        qsub (qdiv (qmul (qmul (qadd z_alpha z_beta) (qadd z_alpha z_beta))
            (qadd (qmul p (qsub 1 p))
              (qdiv (qmul (qmin (mkRat 99 100) (qadd p effect_abs))
                (qsub 1 (qmin (mkRat 99 100) (qadd p effect_abs)))) ratio)))
          (qmul effect_abs effect_abs)) (mkRat 1000 1))
      (mkRat 1 1000) (qmin (mkRat 1 2) (qsub (qsub 1 p) (mkRat 1 1000))) with
  | ok e => simp [Except.map, h0]
  | error u =>
    simp only [Except.map]
    exact congrArg Except.ok (by decide)

theorem C5_witness :
    (0 : Rat) < mkRat 1 10 ∧ (mkRat 1 10 : Rat) < 1 ∧
    qmin (mkRat 99 100) (qmul (mkRat 1 10) (qadd 1 (qdiv 20 100))) ≠ mkRat 1 10 ∧ (1 : Rat) ≠ 0 ∧
    (calc_mde_and_sample_size brFail (mkRat 1 10) 2 1 1 20).map Prod.fst =
      Except.ok (calc_mde_simple brFail 1000 (mkRat 1 10) 2 1 1) :=
  ⟨by decide, by decide, by decide, by decide,
    C5_mde_round_trip brFail (mkRat 1 10) 2 1 1 (by decide) (by decide) (by decide) (by decide)⟩

theorem pairFilter_length {β : Type} (l : List β) (f : β → Rat) (p : Rat → Bool) :
    ((l.map (fun u => (u, f u))).filter (fun pr => p pr.snd)).length =
      l.countP (fun u => p (f u)) := by
  induction l with
  | nil => rfl
  | cons a t ih =>
    by_cases h : p (f a) <;> simp [h, ih, List.countP_cons]

theorem countP_and_comm {β : Type} (l : List β) (a b : β → Bool) :
    l.countP (fun u => a u && b u) = l.countP (fun u => b u && a u) := by
  induction l with
  | nil => rfl
  | cons x t ih => simp [List.countP_cons, ih, Bool.and_comm]

theorem pairFilter_filter_length {β : Type} (l : List β) (f : β → Rat) (p q : Rat → Bool) :
    ((((l.map (fun u => (u, f u))).filter (fun pr => p pr.snd)).filter (fun pr => q pr.snd))).length =
      l.countP (fun u => p (f u) && q (f u)) := by
  rw [List.filter_filter, pairFilter_length l f (fun x => q x && p x), countP_and_comm]

/-- C9: on a nonempty payment table the point-in-time churn rate is the
share, among distinct payers whose last payment is at or after
reference - period_days - inactive_days, of those whose last payment is
before reference - inactive_days, times 100; it is zero when that active
set is empty, and a missing reference defaults to the latest payment
timestamp. -/
theorem C9_churn_rate (pays : List PaymentRec) (inactive_days period_days : Int) (ref : Rat)
    (hne : pays ≠ []) :
    (calc_churn_rate pays inactive_days period_days (some ref) =
      (let payers := uniqList (pays.map (fun p => p.user_id));
       let lastOf := fun u => listMax ((pays.filter (fun p => p.user_id = u)).map (fun p => p.paid_at));
       let nActive := payers.countP (fun u =>
         decide (qsub (qsub ref (mkRat period_days 1)) (mkRat inactive_days 1) ≤ lastOf u));
       if nActive = 0 then 0
       else qmul (qdiv ((payers.countP (fun u =>
           decide (qsub (qsub ref (mkRat period_days 1)) (mkRat inactive_days 1) ≤ lastOf u ∧
             lastOf u < qsub ref (mkRat inactive_days 1))) : Nat) : Int) ((nActive : Nat) : Int)) 100)) ∧
    calc_churn_rate pays inactive_days period_days none =
      calc_churn_rate pays inactive_days period_days
        (some (listMax (pays.map (fun p => p.paid_at)))) := by
  refine ⟨?_, by simp only [calc_churn_rate, Option.getD]⟩
  simp only [calc_churn_rate, Option.getD, if_neg hne]
  rw [pairFilter_length (uniqList (pays.map (fun p => p.user_id)))
      (fun u => listMax ((pays.filter (fun p => p.user_id = u)).map (fun p => p.paid_at)))
      (fun x => decide (x ≥ qsub (qsub ref (mkRat period_days 1)) (mkRat inactive_days 1))),
    pairFilter_filter_length (uniqList (pays.map (fun p => p.user_id)))
      (fun u => listMax ((pays.filter (fun p => p.user_id = u)).map (fun p => p.paid_at)))
      (fun x => decide (x ≥ qsub (qsub ref (mkRat period_days 1)) (mkRat inactive_days 1)))
      (fun x => decide (x < qsub ref (mkRat inactive_days 1)))]
  simp [Bool.decide_and, ge_iff_le]

theorem mem_build_retention (users : List UserRec) (pays : List PaymentRec)
    (co : Int) (m : Nat) (p : Rat) :
    (⟨co, m, p⟩ : CohortCell) ∈ build_retention_cohorts users pays ↔
      (¬ (users = [] ∨ pays = [])) ∧
      co ∈ uniqList ((joinPayments users pays).map (fun r => r.cohort)) ∧
      payersAt (joinPayments users pays) co 0 ≠ [] ∧
      m ∈ List.insertionSort (· ≤ ·) (uniqList ((joinPayments users pays).map (fun r => r.monthNum))) ∧
      p = qmul (qdiv (((payersAt (joinPayments users pays) co 0).filter
          (fun u => u ∈ payersAt (joinPayments users pays) co m)).length : Int)
        ((payersAt (joinPayments users pays) co 0).length : Int)) 100 := by
  constructor
  · intro hc
    by_cases h0 : users = [] ∨ pays = []
    · simp [build_retention_cohorts, h0] at hc
    · simp only [build_retention_cohorts, if_neg h0, List.mem_flatMap] at hc
      obtain ⟨co2, hco2, hin⟩ := hc
      by_cases hp0 : payersAt (joinPayments users pays) co2 0 = []
      · simp [hp0] at hin
      · simp only [if_neg hp0, List.mem_map] at hin
        obtain ⟨m2, hm2, heq⟩ := hin
        rw [CohortCell.mk.injEq] at heq
        obtain ⟨h1, h2, h3⟩ := heq
        subst h1
        subst h2
        exact ⟨h0, hco2, hp0, hm2, h3.symm⟩
  · rintro ⟨h0, hco, hp0, hm, rfl⟩
    simp only [build_retention_cohorts, if_neg h0, List.mem_flatMap]
    refine ⟨co, hco, ?_⟩
    simp only [if_neg hp0, List.mem_map]
    exact ⟨m, hm, rfl⟩

theorem mem_churn_table (users : List UserRec) (pays : List PaymentRec)
    (co : Int) (m : Nat) (p : Rat) :
    (⟨co, m, p⟩ : CohortCell) ∈ churn_by_cohort_table users pays ↔
      (¬ (users = [] ∨ pays = [])) ∧
      co ∈ uniqList ((joinPayments users pays).map (fun r => r.cohort)) ∧
      payersAt (joinPayments users pays) co 0 ≠ [] ∧
      m ∈ List.insertionSort (· ≤ ·) (uniqList ((joinPayments users pays).map (fun r => r.monthNum))) ∧
      p = qsub 100 (qmul (qdiv (((payersAt (joinPayments users pays) co 0).filter
          (fun u => u ∈ payersAt (joinPayments users pays) co m)).length : Int)
        ((payersAt (joinPayments users pays) co 0).length : Int)) 100) := by
  constructor
  · intro hc
    by_cases h0 : users = [] ∨ pays = []
    · simp [churn_by_cohort_table, h0] at hc
    · simp only [churn_by_cohort_table, if_neg h0, List.mem_flatMap] at hc
      obtain ⟨co2, hco2, hin⟩ := hc
      by_cases hp0 : payersAt (joinPayments users pays) co2 0 = []
      · simp [hp0] at hin
      · simp only [if_neg hp0, List.mem_map] at hin
        obtain ⟨m2, hm2, heq⟩ := hin
        rw [CohortCell.mk.injEq] at heq
        obtain ⟨h1, h2, h3⟩ := heq
        subst h1
        subst h2
        exact ⟨h0, hco2, hp0, hm2, h3.symm⟩
  · rintro ⟨h0, hco, hp0, hm, rfl⟩
    simp only [churn_by_cohort_table, if_neg h0, List.mem_flatMap]
    refine ⟨co, hco, ?_⟩
    simp only [if_neg hp0, List.mem_map]
    exact ⟨m, hm, rfl⟩

/-- C4: every (cohort, month-of-life) cell present in both the retention
table and the churn-by-cohort table built over the same users and
payments satisfies retention + churn = 100 exactly, and the two tables
contain exactly the same cohorts, namely those with a nonempty set of
month-0 payers. -/
theorem C4_retention_churn (users : List UserRec) (pays : List PaymentRec) :
    (∀ co m r c, (⟨co, m, r⟩ : CohortCell) ∈ build_retention_cohorts users pays →
      (⟨co, m, c⟩ : CohortCell) ∈ churn_by_cohort_table users pays → r + c = 100) ∧
    (∀ co, (∃ m r, (⟨co, m, r⟩ : CohortCell) ∈ build_retention_cohorts users pays) ↔
      (∃ m c, (⟨co, m, c⟩ : CohortCell) ∈ churn_by_cohort_table users pays)) := by
  constructor
  · intro co m r c hr hc
    obtain ⟨-, -, -, -, hrp⟩ := (mem_build_retention users pays co m r).1 hr
    obtain ⟨-, -, -, -, hcp⟩ := (mem_churn_table users pays co m c).1 hc
    rw [hrp, hcp, qsub_eq]
    ring
  · intro co
    constructor
    · rintro ⟨m, r, hr⟩
      obtain ⟨h0, hco, hp0, hm, -⟩ := (mem_build_retention users pays co m r).1 hr
      exact ⟨m, _, (mem_churn_table users pays co m _).2 ⟨h0, hco, hp0, hm, rfl⟩⟩
    · rintro ⟨m, c, hc⟩
      obtain ⟨h0, hco, hp0, hm, -⟩ := (mem_churn_table users pays co m c).1 hc
      exact ⟨m, _, (mem_build_retention users pays co m _).2 ⟨h0, hco, hp0, hm, rfl⟩⟩

theorem C4_witness :
    ((⟨1, 0, 100⟩ : CohortCell) ∈ build_retention_cohorts
      [⟨1, 0, false, ("control" : String), ("organic" : String)⟩] [⟨1, 1, 299, 5⟩]) ∧
    ((⟨1, 0, 0⟩ : CohortCell) ∈ churn_by_cohort_table
      [⟨1, 0, false, ("control" : String), ("organic" : String)⟩] [⟨1, 1, 299, 5⟩]) ∧
    (100 : Rat) + 0 = 100 :=
  ⟨by decide, by decide,
    (C4_retention_churn [⟨1, 0, false, ("control" : String), ("organic" : String)⟩]
      [⟨1, 1, 299, 5⟩]).1 1 0 100 0 (by decide) (by decide)⟩

theorem C9_witness :
    ([⟨1, 1, 299, 5⟩, ⟨2, 2, 100, 100⟩] : List PaymentRec) ≠ [] ∧
    ((calc_churn_rate [⟨1, 1, 299, 5⟩, ⟨2, 2, 100, 100⟩] 60 40 (some 100) =
      (let payers := uniqList (([⟨1, 1, 299, 5⟩, ⟨2, 2, 100, 100⟩] : List PaymentRec).map (fun p => p.user_id));
       let lastOf := fun u => listMax ((([⟨1, 1, 299, 5⟩, ⟨2, 2, 100, 100⟩] : List PaymentRec).filter
         (fun p => p.user_id = u)).map (fun p => p.paid_at));
       let nActive := payers.countP (fun u =>
         decide (qsub (qsub (100 : Rat) (mkRat 40 1)) (mkRat 60 1) ≤ lastOf u));
       if nActive = 0 then 0
       else qmul (qdiv ((payers.countP (fun u =>
           decide (qsub (qsub (100 : Rat) (mkRat 40 1)) (mkRat 60 1) ≤ lastOf u ∧
             lastOf u < qsub (100 : Rat) (mkRat 60 1))) : Nat) : Int) ((nActive : Nat) : Int)) 100)) ∧
    calc_churn_rate [⟨1, 1, 299, 5⟩, ⟨2, 2, 100, 100⟩] 60 40 none =
      calc_churn_rate [⟨1, 1, 299, 5⟩, ⟨2, 2, 100, 100⟩] 60 40
        (some (listMax (([⟨1, 1, 299, 5⟩, ⟨2, 2, 100, 100⟩] : List PaymentRec).map (fun p => p.paid_at))))) :=
  ⟨by decide, C9_churn_rate [⟨1, 1, 299, 5⟩, ⟨2, 2, 100, 100⟩] 60 40 100 (by decide)⟩

theorem ratFloor_le (q : Rat) : (q.floor : Rat) ≤ q := by
  rw [← intFloor_eq_ratFloor]
  exact Int.floor_le q

theorem le_ratFloor (z : Int) (q : Rat) (h : (z : Rat) ≤ q) : z ≤ q.floor := by
  rw [← intFloor_eq_ratFloor]
  exact Int.le_floor.2 h

theorem ratFloor_lt (q : Rat) (z : Int) (h : q < (z : Rat)) : q.floor < z := by
  rw [← intFloor_eq_ratFloor]
  exact Int.floor_lt.2 h

theorem le_roundHalfEven (q : Rat) (z : Int) (h : (z : Rat) ≤ q) : z ≤ roundHalfEven q := by
  have hf : z ≤ q.floor := le_ratFloor z q h
  unfold roundHalfEven
  split_ifs <;> omega

theorem roundHalfEven_le (q : Rat) (z : Int) (h : q ≤ (z : Rat)) : roundHalfEven q ≤ z := by
  have hfz : q.floor ≤ z := by
    have := le_ratFloor q.floor (z : Rat) (le_trans (ratFloor_le q) h)
    calc q.floor ≤ ((z : Rat)).floor := this
    _ = z := by rw [← intFloor_eq_ratFloor, Int.floor_intCast]
  have hhalf : (0 : Rat) < mkRat 1 2 := by decide
  unfold roundHalfEven
  split_ifs with h1 h2 h3
  · exact hfz
  · have hq : (q.floor : Rat) < q := by
      rw [qsub_eq] at h2
      linarith
    have : q.floor < z := by
      have hc : (q.floor : Rat) < (z : Rat) := lt_of_lt_of_le hq h
      exact_mod_cast hc
    omega
  · exact hfz
  · have hq : (q.floor : Rat) < q := by
      rw [qsub_eq] at h1 h2
      linarith
    have : q.floor < z := by
      have hc : (q.floor : Rat) < (z : Rat) := lt_of_lt_of_le hq h
      exact_mod_cast hc
    omega

/-- Bounds for rounding to cents: when both interval ends are exact
multiples of 1/100, rounding any point of the interval to the nearest
cent stays inside the interval. -/
theorem den_one_cast (q : Rat) (h : q.den = 1) : ((q.num : Int) : Rat) = q := by
  conv_rhs => rw [← Rat.num_div_den q, h]
  simp

theorem round2_bounds (lo hi x : Rat) (hlo : (qmul lo 100).den = 1) (hhi : (qmul hi 100).den = 1)
    (h1 : lo ≤ x) (h2 : x ≤ hi) : lo ≤ round2 x ∧ round2 x ≤ hi := by
  have hA : (((qmul lo 100).num : Int) : Rat) = qmul lo 100 := den_one_cast _ hlo
  have hB : (((qmul hi 100).num : Int) : Rat) = qmul hi 100 := den_one_cast _ hhi
  have hxlo : (((qmul lo 100).num : Int) : Rat) ≤ qmul x 100 := by
    rw [hA, qmul_eq, qmul_eq]
    linarith
  have hxhi : qmul x 100 ≤ (((qmul hi 100).num : Int) : Rat) := by
    rw [hB, qmul_eq, qmul_eq]
    linarith
  have hrlo := le_roundHalfEven _ _ hxlo
  have hrhi := roundHalfEven_le _ _ hxhi
  have hr2 : round2 x = (roundHalfEven (qmul x 100) : Rat) / 100 := by
    rw [round2, Rat.mkRat_eq_div]
    norm_num
  have hclo : (((qmul lo 100).num : Int) : Rat) ≤ (roundHalfEven (qmul x 100) : Rat) := by
    exact_mod_cast hrlo
  have hchi : (roundHalfEven (qmul x 100) : Rat) ≤ (((qmul hi 100).num : Int) : Rat) := by
    exact_mod_cast hrhi
  have hA2 : (((qmul lo 100).num : Int) : Rat) = lo * 100 := by rw [hA, qmul_eq]
  have hB2 : (((qmul hi 100).num : Int) : Rat) = hi * 100 := by rw [hB, qmul_eq]
  constructor
  · rw [hr2]
    rw [hA2] at hclo
    linarith
  · rw [hr2]
    rw [hB2] at hchi
    linarith

theorem gap_le_churn (churnDays u : Rat) (_hu0 : 0 ≤ u) (hu1 : u < 1) (h7 : 7 ≤ churnDays) :
    ¬ (qadd 7 (qmul (qsub (qmin churnDays 70) 7) u) > churnDays) := by
  rw [qadd_eq, qmul_eq, qsub_eq, qmin_eq]
  push_neg
  rcases le_total churnDays 70 with h | h
  · rw [min_eq_left h]
    nlinarith
  · rw [min_eq_right h]
    nlinarith

theorem gap_pos (churnDays u : Rat) (hu0 : 0 ≤ u) (hu1 : u < 1) (hcd : 0 ≤ churnDays)
    (hemit : ¬ (qadd 7 (qmul (qsub (qmin churnDays 70) 7) u) > churnDays)) :
    0 < qadd 7 (qmul (qsub (qmin churnDays 70) 7) u) := by
  rw [qadd_eq, qmul_eq, qsub_eq, qmin_eq] at hemit ⊢
  push_neg at hemit
  rcases le_total churnDays 70 with h | h
  · rw [min_eq_left h] at hemit ⊢
    rcases le_total 7 churnDays with h7 | h7
    · nlinarith
    · nlinarith
  · rw [min_eq_right h] at hemit ⊢
    nlinarith

theorem genRepeats_length (uid : Nat) (minA maxA churnDays : Rat) (k : Nat) :
    ∀ (last : Rat) (payNum pid : Nat) (g : RNG), ValidStream g.stream → 7 ≤ churnDays →
    (genRepeats uid minA maxA churnDays k last payNum pid g).fst.length = k := by
  induction k with
  | zero =>
    intro last payNum pid g hv h7
    rfl
  | succ k ih =>
    intro last payNum pid g hv h7
    have hu := hv g.pos
    have hng := gap_le_churn churnDays (g.stream g.pos) hu.1 hu.2 h7
    simp only [genRepeats, RNG.uniformDraw]
    rw [if_neg hng]
    by_cases hpn : payNum + 1 ≥ 3 <;>
      simp only [hpn, if_true, if_false, List.length_cons] <;>
      rw [ih _ _ _ ⟨g.stream, g.pos + 1 + 1⟩ hv h7]

/-- C10: when churn_months × 30 is at least 7 every drawn repeat gap is at
most churn_days, so the churn-cutoff break never fires: a payer who
passes the repeat draw emits exactly 1 + k payments for the drawn budget
k ∈ [1,5], and a payer who fails it emits exactly the first payment. -/
theorem C10_repeat_budget (minA maxA fmin fmax churn_months repeatRate : Rat)
    (uid : Nat) (reg : Rat) (pid : Nat) (g : RNG)
    (hv : ValidStream g.stream) (h7 : (7 : Rat) ≤ qmul churn_months 30) :
    (g.stream (g.pos + 2) < repeatRate →
      (genUserPayments minA maxA fmin fmax (qmul churn_months 30) repeatRate uid reg pid g).fst.length =
        1 + (1 + (qmul (mkRat 5 1) (g.stream (g.pos + 3))).floor).toNat ∧
      1 ≤ (1 + (qmul (mkRat 5 1) (g.stream (g.pos + 3))).floor).toNat ∧
      (1 + (qmul (mkRat 5 1) (g.stream (g.pos + 3))).floor).toNat ≤ 5) ∧
    (¬ g.stream (g.pos + 2) < repeatRate →
      (genUserPayments minA maxA fmin fmax (qmul churn_months 30) repeatRate uid reg pid g).fst.length = 1) := by
  have hu3 := hv (g.pos + 3)
  have h5 : (mkRat 5 1 : Rat) = 5 := by decide
  have hfl0 : 0 ≤ (qmul (mkRat 5 1) (g.stream (g.pos + 3))).floor := by
    apply le_ratFloor
    rw [qmul_eq, h5]
    push_cast
    nlinarith [hu3.1]
  have hfl5 : (qmul (mkRat 5 1) (g.stream (g.pos + 3))).floor < 5 := by
    apply ratFloor_lt
    rw [qmul_eq, h5]
    push_cast
    nlinarith [hu3.2]
  constructor
  · intro hrep
    have hlen :
        (genUserPayments minA maxA fmin fmax (qmul churn_months 30) repeatRate uid reg pid g).fst.length =
          1 + (1 + (qmul (mkRat 5 1) (g.stream (g.pos + 3))).floor).toNat := by
      simp only [genUserPayments, RNG.uniformDraw, RNG.next, RNG.integersDraw]
      rw [if_neg (by simpa using hrep)]
      simp only [List.length_cons]
      rw [genRepeats_length uid minA maxA (qmul churn_months 30) _ _ _ _
        ⟨g.stream, g.pos + 1 + 1 + 1 + 1⟩ hv h7]
      have h65 : (6 - 1 : Int) = 5 := by decide
      simp only [h65]
      have harith : g.pos + 1 + 1 + 1 = g.pos + 3 := by omega
      rw [harith]
      omega
    refine ⟨hlen, by omega, by omega⟩
  · intro hrep
    simp only [genUserPayments, RNG.uniformDraw, RNG.next, RNG.integersDraw]
    rw [if_pos (by simpa using hrep)]
    rfl

theorem C10_witness :
    ValidStream (fun _ => 0) ∧ (7 : Rat) ≤ qmul 3 30 ∧
    (((fun _ => (0 : Rat)) (0 + 2) < mkRat 3 10 →
      (genUserPayments 100 200 299 499 (qmul 3 30) (mkRat 3 10) 1 0 1 ⟨fun _ => 0, 0⟩).fst.length =
        1 + (1 + (qmul (mkRat 5 1) ((fun _ => (0 : Rat)) (0 + 3))).floor).toNat ∧
      1 ≤ (1 + (qmul (mkRat 5 1) ((fun _ => (0 : Rat)) (0 + 3))).floor).toNat ∧
      (1 + (qmul (mkRat 5 1) ((fun _ => (0 : Rat)) (0 + 3))).floor).toNat ≤ 5) ∧
    (¬ (fun _ => (0 : Rat)) (0 + 2) < mkRat 3 10 →
      (genUserPayments 100 200 299 499 (qmul 3 30) (mkRat 3 10) 1 0 1 ⟨fun _ => 0, 0⟩).fst.length = 1)) :=
  ⟨fun _ => (by decide : (0 : Rat) ≤ 0 ∧ (0 : Rat) < 1), by decide,
    C10_repeat_budget 100 200 299 499 3 (mkRat 3 10) 1 0 1 ⟨fun _ => 0, 0⟩
      (fun _ => (by decide : (0 : Rat) ≤ 0 ∧ (0 : Rat) < 1)) (by decide)⟩

theorem genRepeats_invariants (uid : Nat) (minA maxA churnDays : Rat) (k : Nat) :
    ∀ (last : Rat) (payNum pid : Nat) (g : RNG), ValidStream g.stream → 0 ≤ churnDays →
    ((∀ q ∈ (genRepeats uid minA maxA churnDays k last payNum pid g).fst,
        q.user_id = uid ∧ last < q.paid_at) ∧
      (genRepeats uid minA maxA churnDays k last payNum pid g).fst.Pairwise
        (fun a b => a.paid_at < b.paid_at) ∧
      (genRepeats uid minA maxA churnDays k last payNum pid g).snd.snd.stream = g.stream) := by
  induction k with
  | zero =>
    intro last payNum pid g hv hcd
    exact ⟨by simp [genRepeats], by simp [genRepeats], rfl⟩
  | succ k ih =>
    intro last payNum pid g hv hcd
    have hu := hv g.pos
    by_cases hbr : qadd 7 (qmul (qsub (qmin churnDays 70) 7) (g.stream g.pos)) > churnDays
    · refine ⟨?_, ?_, ?_⟩ <;> simp [genRepeats, RNG.uniformDraw, hbr]
    · have hgap := gap_pos churnDays (g.stream g.pos) hu.1 hu.2 hcd hbr
      have hlast : last < qadd last (qadd 7 (qmul (qsub (qmin churnDays 70) 7) (g.stream g.pos))) := by
        conv_rhs => rw [qadd_eq]
        linarith
      obtain ⟨ihAll, ihPW, ihStream⟩ :=
        ih (qadd last (qadd 7 (qmul (qsub (qmin churnDays 70) 7) (g.stream g.pos))))
          (payNum + 1) (pid + 1) ⟨g.stream, g.pos + 1 + 1⟩ hv hcd
      simp only [genRepeats, RNG.uniformDraw]
      rw [if_neg hbr]
      simp only [apply_ite Prod.snd, ite_self]
      refine ⟨?_, ?_, ?_⟩
      · intro q hq
        rcases List.mem_cons.1 hq with rfl | hq2
        · exact ⟨rfl, hlast⟩
        · obtain ⟨h1, h2⟩ := ihAll q hq2
          exact ⟨h1, lt_trans hlast h2⟩
      · exact List.pairwise_cons.2 ⟨fun q hq => (ihAll q hq).2, ihPW⟩
      · exact ihStream

theorem genUserPayments_invariants (minA maxA fmin fmax churnDays repeatRate : Rat)
    (uid : Nat) (reg : Rat) (pid : Nat) (g : RNG) (hv : ValidStream g.stream)
    (hcd : 0 ≤ churnDays) (hfr : fmin ≤ fmax)
    (hd1 : (qmul fmin 100).den = 1) (hd2 : (qmul fmax 100).den = 1) :
    (∀ q ∈ (genUserPayments minA maxA fmin fmax churnDays repeatRate uid reg pid g).fst,
        q.user_id = uid ∧ reg ≤ q.paid_at) ∧
    (genUserPayments minA maxA fmin fmax churnDays repeatRate uid reg pid g).fst.Pairwise
      (fun a b => a.paid_at < b.paid_at) ∧
    (∃ q0 t, (genUserPayments minA maxA fmin fmax churnDays repeatRate uid reg pid g).fst = q0 :: t ∧
      fmin ≤ q0.amount ∧ q0.amount ≤ fmax ∧ ∀ q ∈ t, q0.paid_at < q.paid_at) ∧
    (genUserPayments minA maxA fmin fmax churnDays repeatRate uid reg pid g).snd.snd.stream = g.stream := by
  have hu0 := hv g.pos
  have hu1 := hv (g.pos + 1)
  have hreg : reg ≤ qadd reg (qadd 0 (qmul (qsub 30 0) (g.stream g.pos))) := by
    rw [qadd_eq, qadd_eq, qmul_eq, qsub_eq]
    nlinarith [hu0.1]
  have hamt : fmin ≤ round2 (qadd fmin (qmul (qsub fmax fmin) (g.stream (g.pos + 1)))) ∧
      round2 (qadd fmin (qmul (qsub fmax fmin) (g.stream (g.pos + 1)))) ≤ fmax := by
    apply round2_bounds _ _ _ hd1 hd2
    · rw [qadd_eq, qmul_eq, qsub_eq]
      nlinarith [hu1.1]
    · rw [qadd_eq, qmul_eq, qsub_eq]
      nlinarith [hu1.1, hu1.2]
  by_cases hrep : g.stream (g.pos + 1 + 1) < repeatRate
  · obtain ⟨rAll, rPW, rStream⟩ :=
      genRepeats_invariants uid minA maxA churnDays
        (1 + (qmul (mkRat (6 - 1) 1) (g.stream (g.pos + 1 + 1 + 1))).floor).toNat
        (qadd reg (qadd 0 (qmul (qsub 30 0) (g.stream g.pos)))) 1 (pid + 1)
        ⟨g.stream, g.pos + 1 + 1 + 1 + 1⟩ hv hcd
    simp only [genUserPayments, RNG.uniformDraw, RNG.next, RNG.integersDraw]
    rw [if_neg (not_not_intro hrep)]
    refine ⟨?_, ?_, ?_, ?_⟩
    · intro q hq
      rcases List.mem_cons.1 hq with rfl | hq2
      · exact ⟨rfl, hreg⟩
      · obtain ⟨h1, h2⟩ := rAll q hq2
        exact ⟨h1, le_trans hreg (le_of_lt h2)⟩
    · exact List.pairwise_cons.2 ⟨fun q hq => (rAll q hq).2, rPW⟩
    · exact ⟨_, _, rfl, hamt.1, hamt.2, fun q hq => (rAll q hq).2⟩
    · exact rStream
  · simp only [genUserPayments, RNG.uniformDraw, RNG.next, RNG.integersDraw]
    rw [if_pos hrep]
    refine ⟨?_, ?_, ?_, ?_⟩
    · intro q hq
      rcases List.mem_cons.1 hq with rfl | hq2
      · exact ⟨rfl, hreg⟩
      · simp at hq2
    · simp
    · exact ⟨_, _, rfl, hamt.1, hamt.2, fun q hq => by simp at hq⟩
    · rfl

theorem genAllPayments_invariants (users : List UserRec)
    (minA maxA fmin fmax churnDays repeatRate : Rat) (payers : List Nat) :
    ∀ (pid : Nat) (g : RNG), ValidStream g.stream → 0 ≤ churnDays → fmin ≤ fmax →
      (qmul fmin 100).den = 1 → (qmul fmax 100).den = 1 → payers.Nodup →
    ((∀ q ∈ (genAllPayments users minA maxA fmin fmax churnDays repeatRate payers pid g).fst,
        q.user_id ∈ payers ∧ regOf users q.user_id ≤ q.paid_at) ∧
      (∀ uid, ((genAllPayments users minA maxA fmin fmax churnDays repeatRate payers pid g).fst.filter
        (fun p => p.user_id = uid)).Pairwise (fun a b => a.paid_at < b.paid_at)) ∧
      (∀ uid, (genAllPayments users minA maxA fmin fmax churnDays repeatRate payers pid g).fst.filter
          (fun p => p.user_id = uid) = [] ∨
        ∃ q0 t, (genAllPayments users minA maxA fmin fmax churnDays repeatRate payers pid g).fst.filter
            (fun p => p.user_id = uid) = q0 :: t ∧
          fmin ≤ q0.amount ∧ q0.amount ≤ fmax ∧ ∀ q ∈ t, q0.paid_at < q.paid_at) ∧
      (genAllPayments users minA maxA fmin fmax churnDays repeatRate payers pid g).snd.stream = g.stream) := by
  induction payers with
  | nil =>
    intro pid g hv hcd hfr hd1 hd2 hnd
    exact ⟨by simp [genAllPayments], by simp [genAllPayments], fun uid => Or.inl (by simp [genAllPayments]), rfl⟩
  | cons uid0 rest ih =>
    intro pid g hv hcd hfr hd1 hd2 hnd
    obtain ⟨oneAll, onePW, oneHead, oneStream⟩ :=
      genUserPayments_invariants minA maxA fmin fmax churnDays repeatRate uid0 (regOf users uid0) pid g
        hv hcd hfr hd1 hd2
    have hvrest : ValidStream (genUserPayments minA maxA fmin fmax churnDays repeatRate uid0
        (regOf users uid0) pid g).snd.snd.stream := by
      rw [oneStream]
      exact hv
    obtain ⟨restAll, restPW, restHead, restStream⟩ :=
      ih (genUserPayments minA maxA fmin fmax churnDays repeatRate uid0 (regOf users uid0) pid g).snd.fst
        (genUserPayments minA maxA fmin fmax churnDays repeatRate uid0 (regOf users uid0) pid g).snd.snd
        hvrest hcd hfr hd1 hd2 (List.nodup_cons.1 hnd).2
    have huid0 : uid0 ∉ rest := (List.nodup_cons.1 hnd).1
    simp only [genAllPayments]
    refine ⟨?_, ?_, ?_, ?_⟩
    · intro q hq
      rcases List.mem_append.1 hq with hq1 | hq2
      · obtain ⟨h1, h2⟩ := oneAll q hq1
        rw [h1]
        exact ⟨List.mem_cons_self uid0 rest, h2⟩
      · obtain ⟨h1, h2⟩ := restAll q hq2
        exact ⟨List.mem_cons_of_mem uid0 h1, h2⟩
    · intro uid
      rw [List.filter_append]
      by_cases huid : uid = uid0
      · subst huid
        have hone : (genUserPayments minA maxA fmin fmax churnDays repeatRate uid
            (regOf users uid) pid g).fst.filter (fun p => p.user_id = uid) =
            (genUserPayments minA maxA fmin fmax churnDays repeatRate uid
              (regOf users uid) pid g).fst :=
          List.filter_eq_self.2 (fun q hq => by simp [(oneAll q hq).1])
        have hrest : (genAllPayments users minA maxA fmin fmax churnDays repeatRate rest
            (genUserPayments minA maxA fmin fmax churnDays repeatRate uid (regOf users uid) pid g).snd.fst
            (genUserPayments minA maxA fmin fmax churnDays repeatRate uid (regOf users uid) pid g).snd.snd).fst.filter
            (fun p => p.user_id = uid) = [] := by
          rw [List.filter_eq_nil_iff]
          intro q hq
          simp only [decide_eq_true_eq]
          intro hqe
          exact huid0 (hqe ▸ (restAll q hq).1)
        rw [hone, hrest, List.append_nil]
        exact onePW
      · have hone : (genUserPayments minA maxA fmin fmax churnDays repeatRate uid0
            (regOf users uid0) pid g).fst.filter (fun p => p.user_id = uid) = [] := by
          rw [List.filter_eq_nil_iff]
          intro q hq
          simp only [decide_eq_true_eq]
          intro hqe
          exact huid ((hqe ▸ (oneAll q hq).1 : uid = uid0))
        rw [hone, List.nil_append]
        exact restPW uid
    · intro uid
      rw [List.filter_append]
      by_cases huid : uid = uid0
      · subst huid
        have hone : (genUserPayments minA maxA fmin fmax churnDays repeatRate uid
            (regOf users uid) pid g).fst.filter (fun p => p.user_id = uid) =
            (genUserPayments minA maxA fmin fmax churnDays repeatRate uid
              (regOf users uid) pid g).fst :=
          List.filter_eq_self.2 (fun q hq => by simp [(oneAll q hq).1])
        have hrest : (genAllPayments users minA maxA fmin fmax churnDays repeatRate rest
            (genUserPayments minA maxA fmin fmax churnDays repeatRate uid (regOf users uid) pid g).snd.fst
            (genUserPayments minA maxA fmin fmax churnDays repeatRate uid (regOf users uid) pid g).snd.snd).fst.filter
            (fun p => p.user_id = uid) = [] := by
          rw [List.filter_eq_nil_iff]
          intro q hq
          simp only [decide_eq_true_eq]
          intro hqe
          exact huid0 (hqe ▸ (restAll q hq).1)
        rw [hone, hrest, List.append_nil]
        obtain ⟨q0, t, heq, hq1, hq2, hq3⟩ := oneHead
        exact Or.inr ⟨q0, t, heq, hq1, hq2, hq3⟩
      · have hone : (genUserPayments minA maxA fmin fmax churnDays repeatRate uid0
            (regOf users uid0) pid g).fst.filter (fun p => p.user_id = uid) = [] := by
          rw [List.filter_eq_nil_iff]
          intro q hq
          simp only [decide_eq_true_eq]
          intro hqe
          exact huid ((hqe ▸ (oneAll q hq).1 : uid = uid0))
        rw [hone, List.nil_append]
        exact restHead uid
    · rw [restStream, oneStream]

theorem payers_sublist (users : List UserRec) : ∀ flags : List Bool,
    (((users.zip flags).filter (fun p => p.snd = true)).map (fun p => p.fst.user_id)).Sublist
      (users.map (fun u => u.user_id)) := by
  induction users with
  | nil =>
    intro flags
    simp
  | cons u us ih =>
    intro flags
    cases flags with
    | nil => simp
    | cons b bs =>
      by_cases hb : b = true
      · subst hb
        simpa using (ih bs).cons₂ u.user_id
      · have hb2 : b = false := by
          cases b
          · rfl
          · exact absurd rfl hb
        subst hb2
        simpa using (ih bs).cons u.user_id

/-- C7 counterexample: with the valid first-payment range
[9.99, 9.996] the drawn amount 9.99594 is rounded to two decimals as
10.00, which lies outside the range — the first payment amount is the
rounded draw and can escape [first_payment_min, first_payment_max] when
the bounds are not whole cents. -/
theorem C7_counterexample :
    ((generate_paymentsR [⟨1, 0, false, ("control" : String), ("organic" : String)⟩]
        100 200 (mkRat 999 100) (mkRat 9996 1000) 3 (mkRat 3 20) (mkRat 3 10)
        ⟨c7Stream, 0⟩).fst.map (fun p => p.amount)) = [10] ∧
    ¬ ((10 : Rat) ≤ mkRat 9996 1000) ∧
    (mkRat 999 100 : Rat) ≤ mkRat 9996 1000 ∧
    (∀ n, 0 ≤ c7Stream n ∧ c7Stream n < 1) := by
  refine ⟨by decide, by decide, by decide, ?_⟩
  intro n
  by_cases h2 : n = 2 <;> by_cases h3 : n = 3 <;>
    simp only [c7Stream, h2, h3, if_true, if_false] <;>
    exact ⟨by decide, by decide⟩

/-- C7 amended: for a valid draw stream, users with pairwise distinct ids,
a nonnegative churn window and a first-payment range with cent-aligned
ends, every generated payment is dated at or after the registration of the
owning user, the payments of each user are strictly increasing in time, and
the chronologically first payment of each payer (the head of its sorted
payment list) has its rounded amount inside
[first_payment_min, first_payment_max]. -/
theorem C7_payment_invariants (users : List UserRec)
    (minA maxA fmin fmax churn_months pay_rate repeat_rate : Rat) (g : RNG)
    (hv : ValidStream g.stream) (hnd : (users.map (fun u => u.user_id)).Nodup)
    (hcm : 0 ≤ churn_months) (hfr : fmin ≤ fmax)
    (hd1 : (qmul fmin 100).den = 1) (hd2 : (qmul fmax 100).den = 1) :
    (∀ q ∈ (generate_paymentsR users minA maxA fmin fmax churn_months pay_rate repeat_rate g).fst,
        regOf users q.user_id ≤ q.paid_at) ∧
    (∀ uid, ((generate_paymentsR users minA maxA fmin fmax churn_months pay_rate repeat_rate g).fst.filter
        (fun p => p.user_id = uid)).Pairwise (fun a b => a.paid_at < b.paid_at)) ∧
    (∀ uid, (generate_paymentsR users minA maxA fmin fmax churn_months pay_rate repeat_rate g).fst.filter
        (fun p => p.user_id = uid) = [] ∨
      ∃ q0 t, (generate_paymentsR users minA maxA fmin fmax churn_months pay_rate repeat_rate g).fst.filter
          (fun p => p.user_id = uid) = q0 :: t ∧
        fmin ≤ q0.amount ∧ q0.amount ≤ fmax ∧ ∀ q ∈ t, q0.paid_at < q.paid_at) := by
  have hcd : (0 : Rat) ≤ qmul churn_months 30 := by
    rw [qmul_eq]
    nlinarith
  have hndp : (((users.zip ((List.range users.length).map
      (fun i => decide (g.stream (g.pos + i) < pay_rate)))).filter
      (fun p => p.snd = true)).map (fun p => p.fst.user_id)).Nodup :=
    (payers_sublist users _).nodup hnd
  obtain ⟨hAll, hPW, hHead, -⟩ :=
    genAllPayments_invariants users minA maxA fmin fmax (qmul churn_months 30) repeat_rate
      (((users.zip ((List.range users.length).map (fun i => decide (g.stream (g.pos + i) < pay_rate)))).filter
        (fun p => p.snd = true)).map (fun p => p.fst.user_id)) 1 ⟨g.stream, g.pos + users.length⟩
      hv hcd hfr hd1 hd2 hndp
  exact ⟨fun q hq => (hAll q hq).2, hPW, hHead⟩

theorem C7_witness :
    ValidStream (fun _ => 0) ∧
    (([⟨1, 0, false, ("control" : String), ("organic" : String)⟩] : List UserRec).map
      (fun u => u.user_id)).Nodup ∧
    ((∀ q ∈ (generate_paymentsR [⟨1, 0, false, ("control" : String), ("organic" : String)⟩]
        100 200 299 499 3 (mkRat 3 20) (mkRat 3 10) ⟨fun _ => 0, 0⟩).fst,
        regOf [⟨1, 0, false, ("control" : String), ("organic" : String)⟩] q.user_id ≤ q.paid_at) ∧
      (∀ uid, ((generate_paymentsR [⟨1, 0, false, ("control" : String), ("organic" : String)⟩]
          100 200 299 499 3 (mkRat 3 20) (mkRat 3 10) ⟨fun _ => 0, 0⟩).fst.filter
          (fun p => p.user_id = uid)).Pairwise (fun a b => a.paid_at < b.paid_at)) ∧
      (∀ uid, (generate_paymentsR [⟨1, 0, false, ("control" : String), ("organic" : String)⟩]
          100 200 299 499 3 (mkRat 3 20) (mkRat 3 10) ⟨fun _ => 0, 0⟩).fst.filter
          (fun p => p.user_id = uid) = [] ∨
        ∃ q0 t, (generate_paymentsR [⟨1, 0, false, ("control" : String), ("organic" : String)⟩]
            100 200 299 499 3 (mkRat 3 20) (mkRat 3 10) ⟨fun _ => 0, 0⟩).fst.filter
            (fun p => p.user_id = uid) = q0 :: t ∧
          (299 : Rat) ≤ q0.amount ∧ q0.amount ≤ 499 ∧ ∀ q ∈ t, q0.paid_at < q.paid_at)) :=
  ⟨fun _ => (by decide : (0 : Rat) ≤ 0 ∧ (0 : Rat) < 1), by decide,
    C7_payment_invariants [⟨1, 0, false, ("control" : String), ("organic" : String)⟩]
      100 200 299 499 3 (mkRat 3 20) (mkRat 3 10) ⟨fun _ => 0, 0⟩
      (fun _ => (by decide : (0 : Rat) ≤ 0 ∧ (0 : Rat) < 1)) (by decide) (by decide)
      (by decide) (by decide) (by decide)⟩
